import Mathlib

namespace GrammarSniper

/-! String primitives shared by the models of the JavaScript sources. -/

/-- Whitespace characters matched by the backslash-s class of JavaScript regular
expressions, restricted to the ASCII range that the repository's data uses. -/
def jsWhitespace (c : Char) : Bool :=
  c = ' ' || c = '\t' || c = '\n' || c = '\r' || c = '\x0B' || c = '\x0C'

/-- Model of JavaScript String.prototype.trim on character lists. -/
def jsTrimList (l : List Char) : List Char :=
  ((l.dropWhile jsWhitespace).reverse.dropWhile jsWhitespace).reverse

/-- Model of JavaScript String.prototype.trim. -/
def jsTrim (s : String) : String := String.mk (jsTrimList s.data)

/-- Scanner behind jsIndexOf: first index at or after i where needle occurs. -/
def idxAux (needle : List Char) : List Char → Nat → Option Nat
  | [], i => if needle.isPrefixOf ([] : List Char) then some i else none
  | c :: t, i => if needle.isPrefixOf (c :: t) then some i else idxAux needle t (i + 1)

/-- Model of JavaScript String.prototype.indexOf: position of the first
occurrence of needle in hay, none when absent (JavaScript returns -1). -/
def jsIndexOf (hay needle : String) : Option Nat := idxAux needle.data hay.data 0

theorem idxAux_le_and_fits {needle hay : List Char} {i p : Nat}
    (h : idxAux needle hay i = some p) :
    i ≤ p ∧ p + needle.length ≤ i + hay.length := by
  induction hay generalizing i with
  | nil =>
    simp only [idxAux] at h
    split at h
    · rename_i hpre
      cases h
      have : needle = [] := by
        simpa [List.isPrefixOf_iff_prefix] using hpre
      simp [this]
    · cases h
  | cons c t ih =>
    simp only [idxAux] at h
    split at h
    · rename_i hpre
      cases h
      have hlen : needle.length ≤ (c :: t).length := by
        have : needle <+: (c :: t) := by
          simpa [List.isPrefixOf_iff_prefix] using hpre
        exact this.length_le
      omega
    · have := ih h
      simp only [List.length_cons]
      omega

theorem jsIndexOf_fits {hay needle : String} {p : Nat}
    (h : jsIndexOf hay needle = some p) :
    p + needle.length ≤ hay.length := by
  have h2 := (@idxAux_le_and_fits needle.data hay.data 0 p h).2
  have e1 : needle.length = needle.data.length := rfl
  have e2 : hay.length = hay.data.length := rfl
  omega

/-! Model of the suggestion-line parsing of getGrammarSuggestions
(src/Grammer Sniper/modules/api.js, lines 114-141).  Each regular-expression
replacement of the source is rendered as an explicit character-list scanner
following JavaScript regex semantics (leftmost match, greedy quantifiers,
ordered alternation). -/

/-- Attempt to strip the anchored numbered-list marker, one or more digits
followed by a period and one whitespace character.  Returns the
remainder when the marker is present (none otherwise). -/
def stripNumDotWs? (l : List Char) : Option (List Char) :=
  let digits := l.takeWhile Char.isDigit
  if digits.isEmpty then none
  else
    match l.dropWhile Char.isDigit with
    | '.' :: c :: rest => if jsWhitespace c then some rest else none
    | _ => none

/-- Test used by the source filter: the line matches the anchored
digits-period-whitespace pattern. -/
def isNumberedLine (s : String) : Bool := (stripNumDotWs? s.data).isSome

/-- First cleanup replacement: remove the number and initial space. -/
def stripNumberMarker (l : List Char) : List Char := (stripNumDotWs? l).getD l

/-- Second cleanup replacement: globally remove double asterisks
(markdown bold markers), scanning left to right without overlap. -/
def removeDoubleStars : List Char → List Char
  | '*' :: '*' :: rest => removeDoubleStars rest
  | c :: rest => c :: removeDoubleStars rest
  | [] => []

/-- Case-insensitive literal match at the start of a list; returns the
remainder after the literal. -/
def matchLitCI : List Char → List Char → Option (List Char)
  | [], l => some l
  | _ :: _, [] => none
  | a :: la, b :: lb => if a.toLower = b.toLower then matchLitCI la lb else none

/-- Second alternative of the label pattern: the literal Alternative version,
one or more digits, and a colon (matched case-insensitively). -/
def matchAltVersionLabel (l : List Char) : Option (List Char) :=
  (matchLitCI "Alternative version ".data l).bind fun r =>
    if (r.takeWhile Char.isDigit).isEmpty then none
    else
      match r.dropWhile Char.isDigit with
      | ':' :: rest => some rest
      | _ => none

/-- Third alternative of the label pattern: one or more non-colon characters
followed by a colon. -/
def matchUpToColon (l : List Char) : Option (List Char) :=
  if (l.takeWhile (· ≠ ':')).isEmpty then none
  else
    match l.dropWhile (· ≠ ':') with
    | ':' :: rest => some rest
    | _ => none

/-- Third cleanup replacement: remove a leading label such as Grammatically
corrected version, Alternative version N, or any other text up to a colon,
together with the whitespace after it (anchored, case-insensitive, ordered
alternation). -/
def removeLabel (l : List Char) : List Char :=
  match matchLitCI "Grammatically corrected version:".data l with
  | some rest => rest.dropWhile jsWhitespace
  | none =>
    match matchAltVersionLabel l with
    | some rest => rest.dropWhile jsWhitespace
    | none =>
      match matchUpToColon l with
      | some rest => rest.dropWhile jsWhitespace
      | none => l

/-- Try to match, at the current position, optional whitespace followed by a
parenthesised group with at least one non-parenthesis character; returns the
remainder after the group. -/
def matchParenGroup (l : List Char) : Option (List Char) :=
  match l.dropWhile jsWhitespace with
  | '(' :: r2 =>
    if (r2.takeWhile (· ≠ ')')).isEmpty then none
    else
      match r2.dropWhile (· ≠ ')') with
      | ')' :: r3 => some r3
      | _ => none
  | _ => none

theorem length_dropWhile_le (p : Char → Bool) (l : List Char) :
    (l.dropWhile p).length ≤ l.length :=
  (List.dropWhile_sublist (p := p) (l := l)).length_le

theorem matchParenGroup_shrink {l r : List Char} (h : matchParenGroup l = some r) :
    r.length < l.length := by
  unfold matchParenGroup at h
  split at h
  · rename_i r2 hd
    split at h
    · cases h
    · split at h
      · rename_i r3 hd2
        cases h
        have h1 := length_dropWhile_le jsWhitespace l
        have h2 := length_dropWhile_le (· ≠ ')') r2
        rw [hd] at h1
        rw [hd2] at h2
        simp only [List.length_cons] at h1 h2
        omega
      · cases h
  · cases h

/-- Scanner of the fourth cleanup replacement, structurally recursive on a
fuel bound.  Every step consumes at least one character of the input
(matchParenGroup_shrink), so a fuel equal to the input length never runs
out. -/
def removeParenGroupsFuel : Nat → List Char → List Char
  | 0, l => l
  | _ + 1, [] => []
  | fuel + 1, c :: rest =>
    match matchParenGroup (c :: rest) with
    | some r => removeParenGroupsFuel fuel r
    | none => c :: removeParenGroupsFuel fuel rest

/-- Fourth cleanup replacement: globally remove explanatory text in
parentheses, with any whitespace run before each group. -/
def removeParenGroups (l : List Char) : List Char :=
  removeParenGroupsFuel l.length l

/-- Fifth cleanup replacement: globally remove square brackets. -/
def removeBrackets (l : List Char) : List Char :=
  l.filter (fun c => !(c = '[' || c = ']'))

/-- ASCII letter, what the character class A to Z matches under the
case-insensitive regex flag. -/
def isAsciiLetter (c : Char) : Bool :=
  ('a' ≤ c && c ≤ 'z') || ('A' ≤ c && c ≤ 'Z')

/-- Whether the trailing-explanation pattern matches exactly at the current
position: a period, one or more whitespace characters, a letter, and no
further period up to the end of the line. -/
def matchTrailingExplanation : List Char → Bool
  | '.' :: rest =>
    if (rest.takeWhile jsWhitespace).isEmpty then false
    else
      match rest.dropWhile jsWhitespace with
      | c :: tail => isAsciiLetter c && tail.all (· ≠ '.')
      | [] => false
  | _ => false

/-- Sixth cleanup replacement: replace a period followed by trailing
explanatory text reaching the end of the line by a bare period
(first match only, as in a non-global JavaScript replace). -/
def removeTrailingExplanation : List Char → List Char
  | [] => []
  | c :: rest =>
    if matchTrailingExplanation (c :: rest) then ['.']
    else c :: removeTrailingExplanation rest

/-- Quote characters stripped by the seventh cleanup replacement. -/
def isQuoteChar (c : Char) : Bool := c = '"' || c = '\x27'

/-- Seventh cleanup replacement: remove one quote at the start and one quote
at the end of the line. -/
def stripOuterQuotes (l : List Char) : List Char :=
  let l1 := match l with
    | c :: rest => if isQuoteChar c then rest else l
    | [] => l
  match l1.getLast? with
  | some c => if isQuoteChar c then l1.dropLast else l1
  | none => l1

/-- Scanner of the whitespace collapsing, structurally recursive on a fuel
bound; every step consumes at least one character, so a fuel equal to the
input length never runs out. -/
def collapseWsFuel : Nat → List Char → List Char
  | 0, l => l
  | _ + 1, [] => []
  | fuel + 1, c :: rest =>
    if jsWhitespace c then ' ' :: collapseWsFuel fuel (rest.dropWhile jsWhitespace)
    else c :: collapseWsFuel fuel rest

/-- Eighth cleanup step, second half: collapse every whitespace run to a
single space. -/
def collapseWs (l : List Char) : List Char :=
  collapseWsFuel l.length l

/-- Terminal punctuation accepted by the final check of the cleanup. -/
def isTerminalPunct (c : Char) : Bool := c = '.' || c = '!' || c = '?'

/-- Ninth cleanup step: append a period unless the line already ends with
terminal punctuation. -/
def ensurePunct (l : List Char) : List Char :=
  match l.getLast? with
  | some c => if isTerminalPunct c then l else l ++ ['.']
  | none => l ++ ['.']

/-- The whole per-line cleanup of getGrammarSuggestions, the composition of
the nine replacement steps of the source in order. -/
def cleanLine (s : String) : String :=
  String.mk (ensurePunct (collapseWs (jsTrimList (stripOuterQuotes
    (removeTrailingExplanation (removeBrackets (removeParenGroups
      (removeLabel (removeDoubleStars (stripNumberMarker s.data))))))))))

/-- Splitter behind the newline split: cut at every newline character,
keeping empty segments, with the reversed current segment as accumulator. -/
def splitLinesAux : List Char → List Char → List String
  | [], acc => [String.mk acc.reverse]
  | c :: rest, acc =>
    if c = '\n' then String.mk acc.reverse :: splitLinesAux rest []
    else splitLinesAux rest (c :: acc)

/-- Model of the JavaScript split on the newline separator. -/
def splitLines (s : String) : List String := splitLinesAux s.data []

/-- Model of the response parsing of getGrammarSuggestions: split the response
text on newlines, keep the lines that match the numbered-list pattern, clean
each, and drop empty lines. -/
def parseSuggestionLines (s : String) : List String :=
  (((splitLines s).filter isNumberedLine).map cleanLine).filter
    (fun line => line.length > 0)

/-- Whether a string ends with one of the terminal punctuation characters. -/
def endsWithTerminalPunct (s : String) : Bool :=
  match s.data.getLast? with
  | some c => isTerminalPunct c
  | none => false

theorem ensurePunct_ne_nil (l : List Char) : ensurePunct l ≠ [] := by
  unfold ensurePunct
  split
  · rename_i c hc
    split
    · intro hnil
      rw [hnil] at hc
      simp at hc
    · simp
  · simp

theorem ensurePunct_getLast (l : List Char) :
    ∃ c, (ensurePunct l).getLast? = some c ∧ isTerminalPunct c = true := by
  unfold ensurePunct
  split
  · rename_i c hc
    split
    · rename_i hp
      exact ⟨c, hc, hp⟩
    · refine ⟨'.', ?_, by decide⟩
      rw [List.getLast?_concat]
  · refine ⟨'.', ?_, by decide⟩
    rw [List.getLast?_concat]

theorem cleanLine_length_pos (s : String) : (cleanLine s).length > 0 := by
  have h := ensurePunct_ne_nil (collapseWs (jsTrimList (stripOuterQuotes
    (removeTrailingExplanation (removeBrackets (removeParenGroups
      (removeLabel (removeDoubleStars (stripNumberMarker s.data)))))))))
  have : (cleanLine s).length =
      (ensurePunct (collapseWs (jsTrimList (stripOuterQuotes
        (removeTrailingExplanation (removeBrackets (removeParenGroups
          (removeLabel (removeDoubleStars (stripNumberMarker s.data)))))))))).length := rfl
  rw [this]
  exact List.length_pos.mpr h

theorem cleanLine_endsPunct (s : String) : endsWithTerminalPunct (cleanLine s) = true := by
  obtain ⟨c, hc, hp⟩ := ensurePunct_getLast (collapseWs (jsTrimList (stripOuterQuotes
    (removeTrailingExplanation (removeBrackets (removeParenGroups
      (removeLabel (removeDoubleStars (stripNumberMarker s.data)))))))))
  unfold endsWithTerminalPunct
  have : (cleanLine s).data = ensurePunct (collapseWs (jsTrimList (stripOuterQuotes
    (removeTrailingExplanation (removeBrackets (removeParenGroups
      (removeLabel (removeDoubleStars (stripNumberMarker s.data))))))))) := rfl
  rw [this, hc]
  exact hp

/-! Model of the JSON-span extraction of checkGrammarWithDetails
(src/Grammer Sniper/modules/api.js, lines 318-321):  the regular expression
matching an opening brace, a greedy run of arbitrary characters, and a
closing brace. -/

/-- Greedy continuation of the span regex after the opening brace: the run of
arbitrary characters followed by a closing brace, which under greedy
backtracking consumes everything up to the last closing brace of the list. -/
def greedyClose : List Char → Option (List Char)
  | [] => none
  | c :: rest =>
    match greedyClose rest with
    | some m => some (c :: m)
    | none => if c = '}' then some [c] else none

/-- Attempt of the span regex at the current position: an opening brace
followed by the greedy closing run. -/
def matchBraceSpan (l : List Char) : Option (List Char) :=
  match l with
  | c :: rest => if c = '{' then (greedyClose rest).map (fun m => '{' :: m) else none
  | [] => none

/-- Model of the match call of checkGrammarWithDetails against the span
regex: leftmost position at which the span pattern matches. -/
def extractJsonBlock : List Char → Option (List Char)
  | [] => none
  | c :: rest =>
    match matchBraceSpan (c :: rest) with
    | some m => some m
    | none => extractJsonBlock rest

theorem mem_of_getLast?_eq {l : List Char} {a : Char} (h : l.getLast? = some a) :
    a ∈ l := by
  obtain ⟨hne, heq⟩ := List.mem_getLast?_eq_getLast (l := l) (x := a) (by simp [h])
  rw [heq]
  exact List.getLast_mem hne

theorem greedyClose_eq_none {l : List Char} : greedyClose l = none ↔ '}' ∉ l := by
  induction l with
  | nil => simp [greedyClose]
  | cons c rest ih =>
    constructor
    · intro h
      unfold greedyClose at h
      split at h
      · cases h
      · rename_i hnone
        split at h
        · cases h
        · rename_i hc
          intro hmem
          rcases List.mem_cons.mp hmem with h1 | h2
          · exact hc h1.symm
          · exact (ih.mp hnone) h2
    · intro h
      have hc : ¬c = '}' := fun hcc => h (by simp [hcc])
      have hrest : '}' ∉ rest := fun hm => h (List.mem_cons_of_mem _ hm)
      unfold greedyClose
      rw [ih.mpr hrest]
      simp [hc]

theorem greedyClose_spec {l m : List Char} (h : greedyClose l = some m) :
    ∃ post, l = m ++ post ∧ m.getLast? = some '}' ∧ '}' ∉ post := by
  induction l generalizing m with
  | nil => cases h
  | cons c rest ih =>
    unfold greedyClose at h
    split at h
    · rename_i m2 hm2
      cases h
      obtain ⟨post, hpost, hlast, hnotin⟩ := ih hm2
      refine ⟨post, by simp [hpost], ?_, hnotin⟩
      cases m2 with
      | nil => simp at hlast
      | cons a b => simpa using hlast
    · rename_i hnone
      split at h
      · rename_i hc
        cases h
        exact ⟨rest, by simp, by simp [hc], greedyClose_eq_none.mp hnone⟩
      · cases h

theorem extractJsonBlock_spec {l m : List Char} (h : extractJsonBlock l = some m) :
    ∃ pre post, l = pre ++ m ++ post ∧ '{' ∉ pre ∧ '}' ∉ post ∧
      m.head? = some '{' ∧ m.getLast? = some '}' := by
  induction l generalizing m with
  | nil => cases h
  | cons c rest ih =>
    unfold extractJsonBlock at h
    split at h
    · rename_i m2 hm2
      cases h
      unfold matchBraceSpan at hm2
      split at hm2
      · rename_i c2 rest2 heq
        cases heq
        split at hm2
        · rename_i hc
          subst hc
          rcases hg : greedyClose rest with _ | m3
          · rw [hg] at hm2
            cases hm2
          · rw [hg] at hm2
            cases hm2
            obtain ⟨post, hpost, hlast, hnotin⟩ := greedyClose_spec hg
            refine ⟨[], post, by simp [hpost], by simp, hnotin, by simp, ?_⟩
            cases m3 with
            | nil => simp at hlast
            | cons a b => simpa using hlast
        · cases hm2
      · cases hm2
    · rename_i hnone
      obtain ⟨pre, post, hsplit, hpre, hpost, hhead, hlast⟩ := ih h
      refine ⟨c :: pre, post, by simp [hsplit], ?_, hpost, hhead, hlast⟩
      intro hmem
      rcases List.mem_cons.mp hmem with h1 | h2
      · subst h1
        simp only [matchBraceSpan, if_pos, Option.map_eq_none'] at hnone
        have hin : '}' ∈ rest := by
          have hmem2 : '}' ∈ m := mem_of_getLast?_eq hlast
          rw [hsplit]
          simp [hmem2]
        exact absurd (greedyClose_eq_none.mp hnone) (by simpa using hin)
      · exact hpre h2

/-! Data model of the API layer (src/Grammer Sniper/modules/api.js). -/

/-- One part inside the parts array of a request payload. -/
structure Part where
  text : String
deriving DecidableEq

/-- One entry of the contents array of a request payload. -/
structure Content where
  parts : List Part
deriving DecidableEq

/-- The JSON body sent by every API call of the extension. -/
structure Payload where
  contents : List Content
deriving DecidableEq

/-- Shallow model of a parsed JSON value.  Numbers are modelled as integers:
the only numeric fields the repository reads are character indices. -/
inductive Json where
  | null
  | bool (b : Bool)
  | num (n : Int)
  | str (s : String)
  | arr (elems : List Json)
  | obj (fields : List (String × Json))

/-- Property access on a parsed JSON value; none models undefined. -/
def Json.lookupField : Json → String → Option Json
  | .obj fields, k => (fields.find? (fun p => p.1 = k)).map (fun p => p.2)
  | _, _ => none

/-- JavaScript truthiness of a JSON value. -/
def Json.truthy : Json → Bool
  | .null => false
  | .bool b => b
  | .num n => n != 0
  | .str s => s != ""
  | .arr _ => true
  | .obj _ => true

/-- A JavaScript number as the index arithmetic of the repository can
produce it: an integer or NaN.  The shallow embedding keeps numeric values
integral; NaN is what a missing index field (undefined) becomes under the
ToNumber coercion of Math.min, and the clamping arithmetic propagates it. -/
inductive JsNum where
  | nan
  | int (n : Int)
deriving DecidableEq

/-- Model of JavaScript Math.min on two values: NaN propagates. -/
def jsMin : JsNum → JsNum → JsNum
  | .nan, _ => .nan
  | .int _, .nan => .nan
  | .int a, .int b => .int (min a b)

/-- Model of JavaScript Math.max on two values: NaN propagates. -/
def jsMax : JsNum → JsNum → JsNum
  | .nan, _ => .nan
  | .int _, .nan => .nan
  | .int a, .int b => .int (max a b)

/-- Adding an integer constant to a JavaScript number: NaN propagates. -/
def JsNum.addInt : JsNum → Int → JsNum
  | .nan, _ => .nan
  | .int a, k => .int (a + k)

/-- The integer a JavaScript number denotes when used as a substring
argument: ToIntegerOrInfinity sends NaN to zero. -/
def JsNum.toSubstringArg : JsNum → Int
  | .nan => 0
  | .int n => n

/-- JavaScript strict less-than on numbers: false when either side is NaN. -/
def JsNum.lt : JsNum → JsNum → Bool
  | .int a, .int b => a < b
  | _, _ => false

/-- JavaScript less-or-equal on numbers: false when either side is NaN. -/
def JsNum.le : JsNum → JsNum → Bool
  | .int a, .int b => a ≤ b
  | _, _ => false

/-- A mistake record of the detailed grammar check, the element shape of the
words_with_mistakes array.  The index fields are JavaScript numbers, so a
model response with missing or non-numeric indices is representable. -/
structure Mistake where
  text : String
  suggestion : String
  mistake_type : String
  start_index : JsNum
  end_index : JsNum
deriving DecidableEq

/-- The result shape of checkGrammarWithDetails. -/
structure DetailedResult where
  words_with_mistakes : List Mistake
deriving DecidableEq

/-- String field access with the empty string for a missing or non-string
field.  The repository never branches on this default, so the JavaScript
undefined is collapsed into it. -/
def Json.getStr (j : Json) (k : String) : String :=
  match j.lookupField k with
  | some (.str s) => s
  | _ => ""

/-- Value of a numeric string literal under the JavaScript ToNumber
coercion, restricted to the integral literals of this embedding: optional
sign and decimal digits after trimming; the empty string is zero and any
other string is NaN. -/
def jsStringToNumber (s : String) : JsNum :=
  let t := jsTrimList s.data
  let digitsVal : List Char → Int :=
    fun l => l.foldl (fun acc c => acc * 10 + ((c.toNat : Int) - 48)) 0
  match t with
  | [] => .int 0
  | '-' :: ds =>
    if !ds.isEmpty && ds.all Char.isDigit then .int (-(digitsVal ds)) else .nan
  | '+' :: ds =>
    if !ds.isEmpty && ds.all Char.isDigit then .int (digitsVal ds) else .nan
  | ds => if ds.all Char.isDigit then .int (digitsVal ds) else .nan

/-- JavaScript ToNumber on a parsed JSON value: numbers stay themselves,
null is zero, booleans are zero and one, strings go through the
numeric-literal parse, and objects are NaN.  Arrays are modelled as NaN;
JavaScript coerces them through their joined string form (the empty array is
zero there), a corner no claim and no model response exercises. -/
def Json.toNumber : Json → JsNum
  | .num n => .int n
  | .null => .int 0
  | .bool b => .int (if b then 1 else 0)
  | .str s => jsStringToNumber s
  | .arr _ => .nan
  | .obj _ => .nan

/-- Index-field access as the source consumes it: the raw field value flows
into Math.min, whose ToNumber coercion turns a missing field (undefined)
into NaN and coerces present values as Json.toNumber does. -/
def Json.getNumField (j : Json) (k : String) : JsNum :=
  match j.lookupField k with
  | some v => v.toNumber
  | none => .nan

/-- Decoding of one raw words_with_mistakes element into a mistake record. -/
def decodeMistake (j : Json) : Mistake :=
  { text := j.getStr "text"
    suggestion := j.getStr "suggestion"
    mistake_type := j.getStr "mistake_type"
    start_index := j.getNumField "start_index"
    end_index := j.getNumField "end_index" }

/-- Structure validation of the parsed response object
(src/Grammer Sniper/modules/api.js, lines 326-329): the result must own a
truthy, array-valued words_with_mistakes field; otherwise the detailed check
degrades to the empty mistake list. -/
def getMistakesArray (j : Json) : Option (List Json) :=
  match j.lookupField "words_with_mistakes" with
  | none => none
  | some v =>
    if !v.truthy then none
    else
      match v with
      | .arr xs => some xs
      | _ => none

/-- Model of JavaScript String.prototype.substring with both clamping and
argument swapping. -/
def jsSubstring (s : String) (a b : Int) : String :=
  let n : Int := (s.length : Int)
  let a2 := min (max a 0) n
  let b2 := min (max b 0) n
  let lo := min a2 b2
  let hi := max a2 b2
  String.mk ((s.data.drop lo.toNat).take (hi - lo).toNat)

/-- Index sanitisation of checkGrammarWithDetails
(src/Grammer Sniper/modules/api.js, lines 332-349): clamp the model-provided
indices into the text with Math.max and Math.min (NaN indices propagate
through the clamps), and when the clamped span does not match the reported
mistake text, relocate the span to the first occurrence of that text; when
that occurrence is absent the clamped, possibly NaN, indices remain. -/
def sanitizeMistake (text : String) (m : Mistake) : Mistake :=
  let s := jsMax (.int 0) (jsMin m.start_index (.int ((text.length : Int) - 1)))
  let e := jsMax (s.addInt 1) (jsMin m.end_index (.int (text.length : Int)))
  let extracted := jsSubstring text s.toSubstringArg e.toSubstringArg
  if jsTrim extracted = jsTrim m.text then
    { m with start_index := s, end_index := e }
  else
    match jsIndexOf text m.text with
    | some p =>
      { m with start_index := .int (p : Int),
               end_index := .int ((p : Int) + (m.text.length : Int)) }
    | none => { m with start_index := s, end_index := e }

/-! The three API operations.  Environment-dependent inputs are parameters:
the API key yielded by getApiKeyWithRetry, the outcome of the network fetch,
and the host JSON parser.  The Bool of each result records whether the
network request was performed. -/

/-- Outcome of the fetch performed by an API operation. -/
inductive ApiOutcome where
  | httpError (status : Nat) (body : String)
  | noCandidates
  | success (responseText : String)

/-- The friendly message returned when no API key is set. -/
def noApiKeyMessage : String :=
  "No API key set. Please set your API key in the extension settings."

/-- The error message thrown on a non-ok HTTP response. -/
def httpErrorMessage (status : Nat) (body : String) : String :=
  "HTTP error! status: " ++ toString status ++ ", message: " ++ body

/-- The API endpoint constructed from the key. -/
def apiUrlFor (key : String) : String :=
  "https://generativelanguage.googleapis.com/v1beta/models/gemini-1.5-flash-latest:generateContent?key=" ++ key

/-- Text of the grammar-suggestions prompt template before the interpolated
input. -/
def grammarPromptPre : String :=
  "Review and correct any grammar, spelling, or style issues in the following text. Then provide 3 alternative ways to express the same content more clearly and professionally.\n\nOriginal text: \""

/-- Text of the grammar-suggestions prompt template after the interpolated
input. -/
def grammarPromptSuf : String :=
  "\"\n\nFormat your response EXACTLY as follows - a numbered list of 4 items without quotes, markdown, or any explanations:\n1. [grammatically corrected version]\n2. [professional alternative 1]\n3. [clear alternative 2]\n4. [impactful alternative 3]\n\n" ++
  "IMPORTANT:\n- Do NOT include quotes, explanations, or labels in your response\n- Do NOT include trailing periods like \"They proceeded down the street.\"\n- Do NOT include any formatting or markdown\n- Just provide the plain text alternatives\n- Each suggestion should be grammatically complete\n- Never explain what you changed or why"

/-- The prompt of getGrammarSuggestions. -/
def grammarPrompt (text : String) : String :=
  grammarPromptPre ++ text ++ grammarPromptSuf

/-- Text of the sentiment prompt template before the interpolated input. -/
def sentimentPromptPre : String :=
  "Analyze the sentiment/tone of the following text and categorize it as exactly one of these options: Confident, Friendly, Formal, Casual, Optimistic, Neutral, Tentative, Concerned, Joyful, or Forceful. Also provide a matching emoji.\n\nText: \""

/-- Text of the sentiment prompt template after the interpolated input. -/
def sentimentPromptSuf : String :=
  "\"\n\nFormat your response exactly like this example:\nSentiment: Confident\nEmoji: 💪\n\nOnly return those two lines, nothing else."

/-- The prompt of analyzeSentiment. -/
def sentimentPrompt (text : String) : String :=
  sentimentPromptPre ++ text ++ sentimentPromptSuf

/-- Text of the detailed-check prompt template before the interpolated
input. -/
def detailedPromptPre : String :=
  "Act as a professional grammar checker. Analyze the following text for grammar, spelling, style, and word choice errors. Pay special attention to character positions.\n\nText to analyze: \""

/-- Text of the detailed-check prompt template after the interpolated
input. -/
def detailedPromptSuf : String :=
  "\"\n\nFormat your response using this exact JSON structure, with no additional text:\n\x7b\n  \"words_with_mistakes\": [\n    \x7b\n      \"text\": \"incorrect text\",\n      \"suggestion\": \"corrected text\",\n      \"mistake_type\": \"grammar|spelling|style|word choice\",\n      \"start_index\": 0,\n      \"end_index\": 0\n    \x7d\n  ]\n\x7d\n\n" ++
  "IMPORTANT RULES for start_index and end_index:\n1. Count characters from 0, including spaces and punctuation\n2. start_index should be the exact position where the incorrect word/phrase begins\n3. end_index should be the position after the last character of the incorrect word/phrase\n4. Double-check that text[start_index:end_index] exactly matches the incorrect text\n5. Verify indices by ensuring end_index - start_index equals the length of the incorrect text\n\n" ++
  "Example: For \"They was walking\", if \"was\" is incorrect:\n- start_index would be 5 (position of \x27w\x27 in \"was\")\n- end_index would be 8 (position after \x27s\x27 in \"was\")\n\n" ++
  "Return an empty words_with_mistakes array if no issues are found.\nGive 3-5 errors maximum to avoid overwhelming the user."

/-- The prompt of checkGrammarWithDetails. -/
def detailedPrompt (text : String) : String :=
  detailedPromptPre ++ text ++ detailedPromptSuf

/-- The payload built by getGrammarSuggestions: a single contents entry
holding a single part with the prompt. -/
def grammarPayload (text : String) : Payload :=
  { contents := [ { parts := [ { text := grammarPrompt text } ] } ] }

/-- The payload built by analyzeSentiment. -/
def sentimentPayload (text : String) : Payload :=
  { contents := [ { parts := [ { text := sentimentPrompt text } ] } ] }

/-- The payload built by checkGrammarWithDetails. -/
def detailedPayload (text : String) : Payload :=
  { contents := [ { parts := [ { text := detailedPrompt text } ] } ] }

/-- Model of getGrammarSuggestions (src/Grammer Sniper/modules/api.js,
lines 37-150).  With no API key it returns the friendly message without
fetching; otherwise it fetches, and its catch block rethrows every failure,
modelled as an error result. -/
def getGrammarSuggestions (text apiKey : String) (outcome : ApiOutcome) :
    Except String (List String) × Bool :=
  if apiKey = "" then (.ok [noApiKeyMessage], false)
  else
    let _payload := grammarPayload text
    match outcome with
    | .httpError status body => (.error (httpErrorMessage status body), true)
    | .noCandidates => (.error "No candidates returned from API", true)
    | .success responseText => (.ok (parseSuggestionLines responseText), true)

/-- The default sentiment result. -/
def neutralSentiment : String := "Neutral"

/-- The default emoji of analyzeSentiment. -/
def defaultEmoji : String := "😐"

/-- Result shape of analyzeSentiment. -/
structure SentimentResult where
  sentiment : String
  emoji : String
deriving DecidableEq

/-- Capture group of the anchorless patterns Sentiment-colon and
Emoji-colon: the characters after the first occurrence of the marker up to
the end of the line. -/
def captureAfter (s marker : String) : Option String :=
  (jsIndexOf s marker).map (fun i =>
    String.mk ((s.data.drop (i + marker.length)).takeWhile
      (fun c => !(c = '\n' || c = '\r'))))

/-- Model of analyzeSentiment (src/Grammer Sniper/modules/api.js,
lines 153-228).  Every failure is caught and degrades to the neutral
default. -/
def analyzeSentiment (text apiKey : String) (outcome : ApiOutcome) :
    SentimentResult × Bool :=
  if apiKey = "" then ({ sentiment := neutralSentiment, emoji := defaultEmoji }, false)
  else
    let _payload := sentimentPayload text
    match outcome with
    | .httpError _ _ => ({ sentiment := neutralSentiment, emoji := defaultEmoji }, true)
    | .noCandidates => ({ sentiment := neutralSentiment, emoji := defaultEmoji }, true)
    | .success responseText =>
      ({ sentiment := (captureAfter responseText "Sentiment: ").elim neutralSentiment jsTrim
         emoji := (captureAfter responseText "Emoji: ").elim defaultEmoji jsTrim }, true)

/-- Model of checkGrammarWithDetails (src/Grammer Sniper/modules/api.js,
lines 231-359).  The host JSON parser is a parameter; a parse failure models
the exception JSON.parse throws, which the catch block turns into the empty
mistake list. -/
def checkGrammarWithDetails (text apiKey : String) (outcome : ApiOutcome)
    (parse : String → Option Json) : DetailedResult × Bool :=
  if apiKey = "" then (⟨[]⟩, false)
  else
    let _payload := detailedPayload text
    match outcome with
    | .httpError _ _ => (⟨[]⟩, true)
    | .noCandidates => (⟨[]⟩, true)
    | .success responseText =>
      match extractJsonBlock responseText.data with
      | none => (⟨[]⟩, true)
      | some block =>
        match parse (String.mk block) with
        | none => (⟨[]⟩, true)
        | some j =>
          match getMistakesArray j with
          | none => (⟨[]⟩, true)
          | some xs =>
            (⟨xs.map (fun x => sanitizeMistake text (decodeMistake x))⟩, true)

/-! Model of the grammar-check cache and conversion
(src/Grammer Sniper/modules/grammarCheck.js, lines 7-163). -/

/-- One error item in the format expected by the UI. -/
structure ErrorItem where
  error : String
  suggestion : String
  type : String
  startPos : JsNum
  endPos : JsNum
deriving DecidableEq

/-- One entry of the grammar-check cache. -/
structure CacheEntry where
  errors : List ErrorItem
  timestamp : Int
deriving DecidableEq

/-- The in-memory cache keyed by the exact input string. -/
abbrev GrammarCache := List (String × CacheEntry)

/-- The cache expiry, thirty minutes in milliseconds. -/
def CACHE_EXPIRY_MS : Int := 30 * 60 * 1000

/-- Model of Map.prototype.get on the cache. -/
def cacheGet (c : GrammarCache) (k : String) : Option CacheEntry :=
  (c.find? (fun p => p.1 = k)).map (fun p => p.2)

/-- Model of Map.prototype.set on the cache: replace the existing binding of
the key, or append a new one. -/
def cacheSet (c : GrammarCache) (k : String) (v : CacheEntry) : GrammarCache :=
  if c.any (fun p => p.1 = k) then
    c.map (fun p => if p.1 = k then (k, v) else p)
  else c ++ [(k, v)]

/-- Per-mistake validation and conversion of checkGrammar
(src/Grammer Sniper/modules/grammarCheck.js, lines 130-150).  The dynamic
typeof checks of the source hold by construction in this typed model (NaN is
a number in JavaScript, so it passes them); the numeric guards are the
JavaScript comparisons, which are false on NaN operands. -/
def validateMistake (m : Mistake) : Option ErrorItem :=
  if JsNum.lt m.start_index (.int 0) || JsNum.le m.end_index m.start_index then none
  else some
    { error := m.text
      suggestion := m.suggestion
      type := if m.mistake_type = "" then "grammar" else m.mistake_type
      startPos := m.start_index
      endPos := m.end_index }

/-- The validated error list built from a detailed result. -/
def validateDetailed (r : DetailedResult) : List ErrorItem :=
  r.words_with_mistakes.filterMap validateMistake

/-- Result of one checkGrammar call: the returned errors, the cache after the
call, and whether the API was consulted. -/
structure CheckOutcome where
  errors : List ErrorItem
  cache : GrammarCache
  calledApi : Bool
deriving DecidableEq

/-- Model of checkGrammar (src/Grammer Sniper/modules/grammarCheck.js,
lines 103-163).  The clock and the detailed API result are parameters. -/
def checkGrammar (text : String) (cache : GrammarCache) (now : Int)
    (apiResult : DetailedResult) : CheckOutcome :=
  if text = "" || (jsTrim text).length < 10 then ⟨[], cache, false⟩
  else
    match cacheGet cache text with
    | some entry =>
      if now - entry.timestamp < CACHE_EXPIRY_MS then ⟨entry.errors, cache, false⟩
      else
        let errors := validateDetailed apiResult
        ⟨errors, cacheSet cache text ⟨errors, now⟩, true⟩
    | none =>
      let errors := validateDetailed apiResult
      ⟨errors, cacheSet cache text ⟨errors, now⟩, true⟩

/-- Invariant of every reachable cache: entries exist only for texts that
passed the minimum-length gate of checkGrammar. -/
def cacheWF (c : GrammarCache) : Prop :=
  ∀ p ∈ c, 10 ≤ (jsTrim p.1).length

/-! Model of the text-node walking helpers
(src/Grammer Sniper/modules/grammarCheck.js, lines 15-100).  An element is
its sequence of text-node values; a node is identified by its index in that
sequence. -/

/-- Result of findTextNodeAtPosition; a none node models the null node of
the exhaustion fallback: the source's while condition assigns each
walker.nextNode() result to its node variable, so when the walker is
exhausted that variable is null (despite the adjacent source comment about
the last node) and the fallback returns a null node with offset zero. -/
structure FoundNode where
  node : Option Nat
  offset : Int
deriving DecidableEq

/-- Walker loop of findTextNodeAtPosition: skip whitespace-only nodes,
accumulate lengths, and stop inside the node containing the position. -/
def findAux (nodes : List String) (idx : Nat) (position currentLength : Int) :
    Option FoundNode :=
  match nodes with
  | [] => if currentLength > 0 then some ⟨none, 0⟩ else none
  | v :: rest =>
    if jsTrim v = "" then findAux rest (idx + 1) position currentLength
    else if currentLength ≤ position ∧ position < currentLength + (v.length : Int) then
      some ⟨some idx, position - currentLength⟩
    else findAux rest (idx + 1) position (currentLength + (v.length : Int))

/-- Model of findTextNodeAtPosition
(src/Grammer Sniper/modules/grammarCheck.js, lines 15-71). -/
def findTextNodeAtPosition (nodes : List String) (position : Int) :
    Option FoundNode :=
  if position < 0 then none else findAux nodes 0 position 0

/-- Walker loop of getTextNodePosition: accumulate the lengths of the
non-whitespace nodes before the target node. -/
def getPosAux (nodes : List String) (idx target : Nat) (currentLength : Int) : Int :=
  match nodes with
  | [] => currentLength
  | v :: rest =>
    if idx = target then currentLength
    else if jsTrim v = "" then getPosAux rest (idx + 1) target currentLength
    else getPosAux rest (idx + 1) target (currentLength + (v.length : Int))

/-- Model of getTextNodePosition
(src/Grammer Sniper/modules/grammarCheck.js, lines 74-100). -/
def getTextNodePosition (nodes : List String) (target : Nat) : Int :=
  getPosAux nodes 0 target 0

/-- Total length of the text nodes that are non-empty after trimming, the
length both walkers effectively traverse. -/
def totalTextLength (nodes : List String) : Int :=
  (nodes.map (fun v => if jsTrim v = "" then (0 : Int) else (v.length : Int))).sum

/-! Model of the configuration module (src/Grammer Sniper/modules/config.js). -/

/-- The mutable configuration globals. -/
structure ConfigState where
  apiKey : String
  apiUrl : String
deriving DecidableEq

/-- Model of updateApiKey (src/Grammer Sniper/modules/config.js,
lines 35-48): an empty key is rejected, a non-empty key is installed together
with its endpoint URL. -/
def updateApiKey (newKey : String) (g : ConfigState) : Bool × ConfigState :=
  if newKey = "" then (false, g)
  else (true, ⟨newKey, apiUrlFor newKey⟩)

/-- Outcome of one attempt of loadApiKey, covering every branch of the
source: unavailable chrome APIs, an invalidated extension context, the
five-second timeout, a chrome runtime error, the critical-error catch, or the
storage callback carrying the optional stored key. -/
inductive LoadOutcome where
  | chromeUnavailable
  | contextInvalid
  | timeout
  | runtimeError
  | criticalError
  | storageResult (googleApiKey : Option String)

/-- The fixed retry bound of loadApiKey. -/
def maxRetries : Nat := 3

/-- Recursive attempt loop of loadApiKey
(src/Grammer Sniper/modules/config.js, lines 56-153).  The source counts
retryCount upward against maxRetries; here retriesLeft is the equivalent
maxRetries minus retryCount, so the retry guard retryCount less than
maxRetries becomes a positive retriesLeft.  The result carries the resolved
boolean, the configuration state, and the number of attempts performed. -/
def tryLoadApiKey (outcomes : Nat → LoadOutcome) (g : ConfigState) :
    Nat → Nat → Bool × ConfigState × Nat
  | retriesLeft, attemptIdx =>
    match outcomes attemptIdx, retriesLeft with
    | .chromeUnavailable, _ => (false, g, attemptIdx + 1)
    | .contextInvalid, _ => (false, g, attemptIdx + 1)
    | .timeout, r + 1 => tryLoadApiKey outcomes g r (attemptIdx + 1)
    | .timeout, 0 => (false, g, attemptIdx + 1)
    | .runtimeError, r + 1 => tryLoadApiKey outcomes g r (attemptIdx + 1)
    | .runtimeError, 0 => (false, g, attemptIdx + 1)
    | .criticalError, r + 1 => tryLoadApiKey outcomes g r (attemptIdx + 1)
    | .criticalError, 0 => (false, g, attemptIdx + 1)
    | .storageResult none, _ => (false, g, attemptIdx + 1)
    | .storageResult (some k), r =>
      if k = "" then (false, g, attemptIdx + 1)
      else
        match updateApiKey k g, r with
        | (true, g2), r2 =>
          if g2.apiKey ≠ "" ∧ g2.apiKey = k then (true, g2, attemptIdx + 1)
          else
            match r2 with
            | r3 + 1 => tryLoadApiKey outcomes g2 r3 (attemptIdx + 1)
            | 0 => (false, g2, attemptIdx + 1)
        | (false, g2), r3 + 1 => tryLoadApiKey outcomes g2 r3 (attemptIdx + 1)
        | (false, g2), 0 => (false, g2, attemptIdx + 1)

/-- Model of loadApiKey: the initial attempt with the full retry budget. -/
def loadApiKey (outcomes : Nat → LoadOutcome) (g : ConfigState) :
    Bool × ConfigState × Nat :=
  tryLoadApiKey outcomes g maxRetries 0

/-! Model of the content script (src/unnamed/part_000): the message handler
for API-key updates and the active-model accessor. -/

/-- The two browser storage areas the content script can reach. -/
structure BrowserState where
  pageLocal : List (String × String)
  extSync : List (String × String)
deriving DecidableEq

/-- Key-value store update, replacing or appending the binding. -/
def storageSet (st : List (String × String)) (k v : String) :
    List (String × String) :=
  if st.any (fun p => p.1 = k) then
    st.map (fun p => if p.1 = k then (k, v) else p)
  else st ++ [(k, v)]

/-- Key-value store read. -/
def storageGet (st : List (String × String)) (k : String) : Option String :=
  (st.find? (fun p => p.1 = k)).map (fun p => p.2)

/-- Model of the activeModel branch of the API_KEY_UPDATED message handler
(src/unnamed/part_000, lines 83-88): a truthy activeModel value is written to
page-local storage. -/
def handleApiKeyUpdatedModel (activeModel : Option String) (s : BrowserState) :
    BrowserState :=
  match activeModel with
  | some m =>
    if m = "" then s
    else { s with pageLocal := storageSet s.pageLocal "activeModel" m }
  | none => s

/-- Model of getActiveModel (src/unnamed/part_000, lines 143-145): read the
identifier from page-local storage, falling back to gemini on a missing or
falsy value. -/
def getActiveModel (s : BrowserState) : String :=
  match storageGet s.pageLocal "activeModel" with
  | some v => if v = "" then "gemini" else v
  | none => "gemini"

/-- Model of the popup function saveActiveModel (src/unnamed/part_000,
lines 1359-1366): write the selected identifier to extension-synced storage
when it differs from the stored value (a missing stored value differs from
any identifier). -/
def saveActiveModel (model : String) (s : BrowserState) : BrowserState :=
  if storageGet s.extSync "activeModel" = some model then s
  else { s with extSync := storageSet s.extSync "activeModel" model }

/-- Model of the popup save-button persistence (src/unnamed/part_000,
lines 1337-1355): the API key and the active model are written together to
extension-synced storage before the content scripts are notified with the
API_KEY_UPDATED message. -/
def saveButtonPersist (apiKey activeModel : String) (s : BrowserState) :
    BrowserState :=
  let withKey := storageSet s.extSync "googleApiKey" apiKey
  { s with extSync := storageSet withKey "activeModel" activeModel }

/-! Debounce windows installed by the grammar-check and logo-positioning
handlers. -/

/-- Delay of the debounced input handler repositioning the logo
(src/unnamed/part_000, line 324). -/
def handleInputDebounceMs : Nat := 150

/-- Delay of the debounced scroll-and-resize logo repositioning
(src/unnamed/part_000, line 379). -/
def repositionLogoDebounceMs : Nat := 50

/-- Delay of the debounced grammar check attached to editable elements
(src/Grammer Sniper/modules/grammarCheck.js, line 1130). -/
def debouncedCheckDebounceMs : Nat := 1000

/-- Delay of the debouncing setTimeout of the detailed grammar check
(src/Grammer Sniper/modules/grammarCheck.js, line 1990). -/
def setupDebounceMs : Nat := 1500

/-- Delay of the debounced window-resize popup repositioning
(src/unnamed/part_002, lines 703-727). -/
def handleWindowResizeDebounceMs : Nat := 100

/-- Every delay the grammar-check and logo-positioning handlers pass to
debounce or use as a debouncing setTimeout delay. -/
def installedDebounceDelaysMs : List Nat :=
  [handleInputDebounceMs, repositionLogoDebounceMs, debouncedCheckDebounceMs,
   setupDebounceMs, handleWindowResizeDebounceMs]

/-! Auxiliary lemmas. -/

theorem one_le_length_of_ne_empty {s : String} (h : s ≠ "") : 1 ≤ s.length := by
  cases s with
  | mk data =>
    cases data with
    | nil => exact absurd rfl h
    | cons a l =>
      show 1 ≤ (a :: l).length
      simp

theorem storageGet_storageSet (st : List (String × String)) (k v : String) :
    storageGet (storageSet st k v) k = some v := by
  induction st with
  | nil => simp [storageSet, storageGet]
  | cons p t ih =>
    by_cases hp : p.1 = k
    · simp [storageSet, storageGet, hp]
    · have h1 : storageSet (p :: t) k v = p :: storageSet t k v := by
        by_cases ht : t.any (fun q => q.1 = k) <;>
          simp [storageSet, hp, ht]
      rw [h1]
      unfold storageGet at ih ⊢
      rw [List.find?_cons_of_neg _ (by simpa using hp)]
      exact ih

theorem cacheWF_cacheSet {c : GrammarCache} {k : String} {v : CacheEntry}
    (hc : cacheWF c) (hk : 10 ≤ (jsTrim k).length) : cacheWF (cacheSet c k v) := by
  intro p hp
  unfold cacheSet at hp
  split at hp
  · rcases List.mem_map.mp hp with ⟨q, hq, hfq⟩
    by_cases hqk : q.1 = k
    · rw [if_pos hqk] at hfq
      rw [← hfq]
      exact hk
    · rw [if_neg hqk] at hfq
      rw [← hfq]
      exact hc q hq
  · rcases List.mem_append.mp hp with h1 | h2
    · exact hc p h1
    · have : p = (k, v) := by simpa using h2
      rw [this]
      exact hk

/-- Modelled from the spec words, for comparison with the source behaviour:
the first brace-delimited block of the response, running from the first
opening brace to the first closing brace after it. -/
def specFirstBraceBlock : List Char → Option (List Char)
  | [] => none
  | c :: rest =>
    if c = '{' then
      match rest.dropWhile (· ≠ '}') with
      | '}' :: _ => some ('{' :: rest.takeWhile (· ≠ '}') ++ ['}'])
      | _ => none
    else specFirstBraceBlock rest

/-! Claim theorems. -/

/-- C3: with an empty API key every API operation keeps running in
best-effort mode: getGrammarSuggestions returns the one-element
no-API-key message, analyzeSentiment the neutral default with the default
emoji, and checkGrammarWithDetails the empty mistake list; none of them
performs a network request or throws. -/
theorem emptyKey_bestEffort (text : String) (outcome : ApiOutcome)
    (parse : String → Option Json) :
    getGrammarSuggestions text "" outcome = (.ok [noApiKeyMessage], false) ∧
    analyzeSentiment text "" outcome =
      ({ sentiment := neutralSentiment, emoji := defaultEmoji }, false) ∧
    checkGrammarWithDetails text "" outcome parse = (⟨[]⟩, false) := by
  refine ⟨?_, ?_, ?_⟩ <;>
    simp [getGrammarSuggestions, analyzeSentiment, checkGrammarWithDetails]

/-- C4: every HTTP request body is a payload with exactly one contents entry
holding exactly one part whose only field is the prompt built around the
input text. -/
theorem payload_shape (text : String) :
    (grammarPayload text).contents = [⟨[⟨grammarPrompt text⟩]⟩] ∧
    (sentimentPayload text).contents = [⟨[⟨sentimentPrompt text⟩]⟩] ∧
    (detailedPayload text).contents = [⟨[⟨detailedPrompt text⟩]⟩] ∧
    grammarPrompt text = grammarPromptPre ++ text ++ grammarPromptSuf ∧
    sentimentPrompt text = sentimentPromptPre ++ text ++ sentimentPromptSuf ∧
    detailedPrompt text = detailedPromptPre ++ text ++ detailedPromptSuf :=
  ⟨rfl, rfl, rfl, rfl, rfl, rfl⟩

/-- C6 counterexample: the claim that every installed debounce window is at
least 100 milliseconds fails, because the scroll-and-resize logo
repositioning handler installs a 50 millisecond window. -/
theorem debounceDelay_below_claimed_floor :
    repositionLogoDebounceMs ∈ installedDebounceDelaysMs ∧
    repositionLogoDebounceMs < 100 ∧
    ¬(∀ d ∈ installedDebounceDelaysMs, 100 ≤ d ∧ d ≤ 1500) := by
  refine ⟨by decide, by decide, fun h => ?_⟩
  have := h repositionLogoDebounceMs (by decide)
  exact absurd this.1 (by decide)

/-- C6 amended: every debounce window installed by the grammar-check and
logo-positioning handlers lies between 50 milliseconds and 1.5 seconds
inclusive. -/
theorem debounceDelays_within_bounds (d : Nat)
    (h : d ∈ installedDebounceDelaysMs) : 50 ≤ d ∧ d ≤ 1500 := by
  fin_cases h <;> exact ⟨by decide, by decide⟩

/-- Witness for the amended C6 bound at the smallest installed window. -/
theorem debounceDelays_within_bounds_witness :
    repositionLogoDebounceMs ∈ installedDebounceDelaysMs ∧
    50 ≤ repositionLogoDebounceMs ∧ repositionLogoDebounceMs ≤ 1500 :=
  ⟨by decide, debounceDelays_within_bounds repositionLogoDebounceMs (by decide)⟩

/-- C7 counterexample: getActiveModel does not read the identifier back from
extension-synced storage.  With the identifier persisted to the synced area
by the popup save but no page-local copy yet, getActiveModel still returns
the gemini default; only after the API_KEY_UPDATED handler writes the
carried identifier to page-local storage does getActiveModel return it. -/
theorem getActiveModel_reads_pageLocal_not_extSync :
    storageGet (saveButtonPersist "key" "openai"
      ⟨[], []⟩).extSync "activeModel" = some "openai" ∧
    getActiveModel (saveButtonPersist "key" "openai" ⟨[], []⟩) = "gemini" ∧
    storageGet (handleApiKeyUpdatedModel (some "openai")
      (saveButtonPersist "key" "openai" ⟨[], []⟩)).pageLocal "activeModel" =
      some "openai" ∧
    getActiveModel (handleApiKeyUpdatedModel (some "openai")
      (saveButtonPersist "key" "openai" ⟨[], []⟩)) = "openai" := by
  exact ⟨by decide, by decide, by decide, by decide⟩

/-- C7 amended: the popup persists the active-model identifier in
extension-synced storage (both through saveActiveModel and through the
save-button write); the API_KEY_UPDATED handler in the content script writes
the carried truthy identifier to page-local storage without touching the
synced area itself; and getActiveModel reads the identifier back from
page-local storage only, defaulting to gemini when that copy is unset or
falsy. -/
theorem activeModel_pageLocal_roundtrip (m apiKey : String) (s : BrowserState)
    (hm : m ≠ "") :
    storageGet (saveActiveModel m s).extSync "activeModel" = some m ∧
    storageGet (saveButtonPersist apiKey m s).extSync "activeModel" = some m ∧
    storageGet (handleApiKeyUpdatedModel (some m) s).pageLocal "activeModel" =
      some m ∧
    (handleApiKeyUpdatedModel (some m) s).extSync = s.extSync ∧
    getActiveModel (handleApiKeyUpdatedModel (some m) s) = m ∧
    (∀ s2 : BrowserState, getActiveModel s2 =
      getActiveModel ⟨s2.pageLocal, []⟩) ∧
    (∀ s2 : BrowserState, storageGet s2.pageLocal "activeModel" = none →
      getActiveModel s2 = "gemini") := by
  have hset : storageGet
      (handleApiKeyUpdatedModel (some m) s).pageLocal "activeModel" = some m := by
    simp only [handleApiKeyUpdatedModel, if_neg hm]
    exact storageGet_storageSet s.pageLocal "activeModel" m
  refine ⟨?_, ?_, hset, ?_, ?_, ?_, ?_⟩
  · by_cases hc : storageGet s.extSync "activeModel" = some m
    · simp only [saveActiveModel, if_pos hc]
      exact hc
    · simp only [saveActiveModel, if_neg hc]
      exact storageGet_storageSet s.extSync "activeModel" m
  · exact storageGet_storageSet
      (storageSet s.extSync "googleApiKey" apiKey) "activeModel" m
  · simp [handleApiKeyUpdatedModel, hm]
  · unfold getActiveModel
    rw [hset]
    simp [hm]
  · intro s2
    rfl
  · intro s2 h2
    unfold getActiveModel
    rw [h2]

/-- Witness for the amended C7 persistence and round trip at a concrete
model identifier. -/
theorem activeModel_pageLocal_roundtrip_witness :
    storageGet (saveActiveModel "openai" ⟨[], []⟩).extSync "activeModel" =
      some "openai" ∧
    storageGet (handleApiKeyUpdatedModel (some "openai")
      ⟨[], []⟩).pageLocal "activeModel" = some "openai" ∧
    getActiveModel (handleApiKeyUpdatedModel (some "openai") ⟨[], []⟩) =
      "openai" :=
  ⟨(activeModel_pageLocal_roundtrip "openai" "key" ⟨[], []⟩ (by decide)).1,
   (activeModel_pageLocal_roundtrip "openai" "key" ⟨[], []⟩ (by decide)).2.2.1,
   (activeModel_pageLocal_roundtrip "openai" "key" ⟨[], []⟩ (by decide)).2.2.2.2.1⟩

/-- C1 counterexample: getGrammarSuggestions does not degrade an HTTP error
to a no-suggestion result; its catch block rethrows, so the failure
propagates to the caller instead of returning normally. -/
theorem getGrammarSuggestions_rethrows :
    (getGrammarSuggestions "They was walking" "key"
      (.httpError 500 "backend failure")).1 =
      Except.error (httpErrorMessage 500 "backend failure") := by
  simp [getGrammarSuggestions, httpErrorMessage]

/-- C1 amended: analyzeSentiment and checkGrammarWithDetails catch their own
failures, log them, and degrade to the neutral sentiment and the empty
mistake list for every failure mode, while getGrammarSuggestions catches and
logs but rethrows, so HTTP errors and missing candidates propagate to its
caller. -/
theorem apiFailureHandling (text apiKey : String) (status : Nat) (body : String)
    (parse : String → Option Json) (hk : apiKey ≠ "") :
    (getGrammarSuggestions text apiKey (.httpError status body)).1 =
      .error (httpErrorMessage status body) ∧
    (getGrammarSuggestions text apiKey .noCandidates).1 =
      .error "No candidates returned from API" ∧
    (analyzeSentiment text apiKey (.httpError status body)).1 =
      { sentiment := neutralSentiment, emoji := defaultEmoji } ∧
    (analyzeSentiment text apiKey .noCandidates).1 =
      { sentiment := neutralSentiment, emoji := defaultEmoji } ∧
    (checkGrammarWithDetails text apiKey (.httpError status body) parse).1 = ⟨[]⟩ ∧
    (checkGrammarWithDetails text apiKey .noCandidates parse).1 = ⟨[]⟩ ∧
    (∀ resp : String, extractJsonBlock resp.data = none →
      (checkGrammarWithDetails text apiKey (.success resp) parse).1 = ⟨[]⟩) ∧
    (∀ (resp : String) (block : List Char),
      extractJsonBlock resp.data = some block →
      parse (String.mk block) = none →
      (checkGrammarWithDetails text apiKey (.success resp) parse).1 = ⟨[]⟩) := by
  refine ⟨?_, ?_, ?_, ?_, ?_, ?_, ?_, ?_⟩
  · simp [getGrammarSuggestions, hk]
  · simp [getGrammarSuggestions, hk]
  · simp [analyzeSentiment, hk]
  · simp [analyzeSentiment, hk]
  · simp [checkGrammarWithDetails, hk]
  · simp [checkGrammarWithDetails, hk]
  · intro resp hextract
    simp [checkGrammarWithDetails, hk, hextract]
  · intro resp block hextract hparse
    simp [checkGrammarWithDetails, hk, hextract, hparse]

/-- Witness for the amended C1 failure handling at concrete inputs. -/
theorem apiFailureHandling_witness :
    (getGrammarSuggestions "They was walking" "key" (.httpError 500 "x")).1 =
      .error (httpErrorMessage 500 "x") ∧
    (analyzeSentiment "They was walking" "key" .noCandidates).1 =
      { sentiment := neutralSentiment, emoji := defaultEmoji } ∧
    (checkGrammarWithDetails "They was walking" "key"
      (.success "no braces here") (fun _ => none)).1 = ⟨[]⟩ := by
  have h := apiFailureHandling "They was walking" "key" 500 "x"
    (fun _ => none) (by decide)
  exact ⟨h.1, h.2.2.2.1, h.2.2.2.2.2.2.1 "no braces here" (by decide)⟩

/-- C9 counterexample: the claimed bounds fail in two ways.  A mistake whose
reported text is empty relocates to the empty span zero to zero, because
indexOf of the empty string is zero; and a mistake whose index fields are
missing (NaN after the ToNumber coercion) and whose non-empty text does not
occur in the input keeps NaN indices, because the clamps propagate NaN and
the relocation finds nothing. -/
theorem sanitize_violates_bounds :
    (sanitizeMistake "ab" ⟨"", "fix", "grammar", .int 0, .int 1⟩).start_index =
      .int 0 ∧
    (sanitizeMistake "ab" ⟨"", "fix", "grammar", .int 0, .int 1⟩).end_index =
      .int 0 ∧
    JsNum.lt
      (sanitizeMistake "ab" ⟨"", "fix", "grammar", .int 0, .int 1⟩).start_index
      (sanitizeMistake "ab" ⟨"", "fix", "grammar", .int 0, .int 1⟩).end_index =
      false ∧
    (sanitizeMistake "hello world"
      ⟨"zz", "x", "spelling", .nan, .nan⟩).start_index = .nan ∧
    (sanitizeMistake "hello world"
      ⟨"zz", "x", "spelling", .nan, .nan⟩).end_index = .nan ∧
    JsNum.lt
      (sanitizeMistake "hello world"
        ⟨"zz", "x", "spelling", .nan, .nan⟩).start_index
      (sanitizeMistake "hello world"
        ⟨"zz", "x", "spelling", .nan, .nan⟩).end_index = false := by
  exact ⟨by decide, by decide, by decide, by decide, by decide, by decide⟩

/-- Characterisation of sanitizeMistake on integral indices: either the
clamped indices are kept, or the span is relocated to the first occurrence
of the mistake text. -/
theorem sanitizeMistake_cases (text : String) (m : Mistake) (a b : Int)
    (ha : m.start_index = .int a) (hb : m.end_index = .int b) :
    ((sanitizeMistake text m).start_index =
        .int (max 0 (min a ((text.length : Int) - 1))) ∧
      (sanitizeMistake text m).end_index =
        .int (max (max 0 (min a ((text.length : Int) - 1)) + 1)
          (min b (text.length : Int)))) ∨
    (∃ p, jsIndexOf text m.text = some p ∧
      (sanitizeMistake text m).start_index = .int (p : Int) ∧
      (sanitizeMistake text m).end_index =
        .int ((p : Int) + (m.text.length : Int))) := by
  unfold sanitizeMistake
  rw [ha, hb]
  simp only [jsMin, jsMax, JsNum.addInt]
  split
  · left
    exact ⟨rfl, rfl⟩
  · rcases hidx : jsIndexOf text m.text with _ | p
    · left
      exact ⟨rfl, rfl⟩
    · right
      exact ⟨p, rfl, rfl, rfl⟩

/-- C9 amended: for every non-empty input text, every mistake whose reported
text is non-empty and whose index fields are numeric rather than NaN
satisfies the sanitised bounds: the resulting indices are integers with a
non-negative start strictly below the end, which is at most the text
length. -/
theorem sanitizeMistake_bounds (text : String) (m : Mistake) (a b : Int)
    (htext : text ≠ "") (hm : m.text ≠ "")
    (ha : m.start_index = .int a) (hb : m.end_index = .int b) :
    ∃ s e : Int, (sanitizeMistake text m).start_index = .int s ∧
      (sanitizeMistake text m).end_index = .int e ∧
      0 ≤ s ∧ s < e ∧ e ≤ (text.length : Int) := by
  have hL : (1 : Int) ≤ (text.length : Int) := by
    exact_mod_cast one_le_length_of_ne_empty htext
  have hmlen : 1 ≤ m.text.length := one_le_length_of_ne_empty hm
  rcases sanitizeMistake_cases text m a b ha hb with ⟨hs, he⟩ | ⟨p, hidx, hs, he⟩
  · refine ⟨max 0 (min a ((text.length : Int) - 1)),
      max (max 0 (min a ((text.length : Int) - 1)) + 1)
        (min b (text.length : Int)), hs, he, ?_, ?_, ?_⟩
    · exact le_max_left _ _
    · have h1 : max 0 (min a ((text.length : Int) - 1)) + 1 ≤
          max (max 0 (min a ((text.length : Int) - 1)) + 1)
            (min b (text.length : Int)) := le_max_left _ _
      omega
    · have h1 : max 0 (min a ((text.length : Int) - 1)) ≤
          (text.length : Int) - 1 :=
        max_le (by omega) (min_le_right _ _)
      exact max_le (by omega) (min_le_right _ _)
  · have hfit : p + m.text.length ≤ text.length := jsIndexOf_fits hidx
    exact ⟨(p : Int), (p : Int) + (m.text.length : Int), hs, he,
      by omega, by omega, by omega⟩

/-- Witness for the amended C9 bounds at a concrete text and mistake with
out-of-range numeric indices. -/
theorem sanitizeMistake_bounds_witness :
    (∃ s e : Int,
      (sanitizeMistake "They was walking"
        ⟨"was", "were", "grammar", .int 50, .int 90⟩).start_index = .int s ∧
      (sanitizeMistake "They was walking"
        ⟨"was", "were", "grammar", .int 50, .int 90⟩).end_index = .int e ∧
      0 ≤ s ∧ s < e ∧ e ≤ (("They was walking" : String).length : Int)) ∧
    (sanitizeMistake "They was walking"
      ⟨"was", "were", "grammar", .int 50, .int 90⟩).start_index = .int 5 ∧
    (sanitizeMistake "They was walking"
      ⟨"was", "were", "grammar", .int 50, .int 90⟩).end_index = .int 8 :=
  ⟨sanitizeMistake_bounds "They was walking"
      ⟨"was", "were", "grammar", .int 50, .int 90⟩ 50 90
      (by decide) (by decide) rfl rfl,
    by decide, by decide⟩

/-- C5 counterexample: on a response holding two brace blocks, the source
extraction spans from the first opening brace to the last closing brace of
the response, which is not the first brace-delimited block (here the blocks
are flat, so the first block reads the same under a balanced-brace or a
first-closing-brace interpretation). -/
theorem extractJsonBlock_not_first_block :
    extractJsonBlock "\x7b\"a\": 1\x7d and \x7b\"b\": 2\x7d".data =
      some "\x7b\"a\": 1\x7d and \x7b\"b\": 2\x7d".data ∧
    specFirstBraceBlock "\x7b\"a\": 1\x7d and \x7b\"b\": 2\x7d".data =
      some "\x7b\"a\": 1\x7d".data ∧
    extractJsonBlock "\x7b\"a\": 1\x7d and \x7b\"b\": 2\x7d".data ≠
      specFirstBraceBlock "\x7b\"a\": 1\x7d and \x7b\"b\": 2\x7d".data := by
  exact ⟨by decide, by decide, by decide⟩

/-- C5 amended: the response parsing has exactly two forms.
getGrammarSuggestions returns exactly the lines of the response that match
the numbered-list pattern, each cleaned, and every returned line ends with
terminal punctuation; checkGrammarWithDetails extracts the span of the
response from its first opening brace to its last closing brace, hands it to
the JSON parser, and returns the empty mistake list whenever the parsed
object lacks an array-valued words_with_mistakes field. -/
theorem responseParsing_spec (s : String) :
    parseSuggestionLines s =
      (((splitLines s).filter isNumberedLine).map cleanLine) ∧
    (∀ line ∈ parseSuggestionLines s, endsWithTerminalPunct line = true) ∧
    (∀ l m2 : List Char, extractJsonBlock l = some m2 →
      ∃ pre post, l = pre ++ m2 ++ post ∧ '{' ∉ pre ∧ '}' ∉ post ∧
        m2.head? = some '{' ∧ m2.getLast? = some '}') ∧
    (∀ j : Json, getMistakesArray j = none ↔
      ∀ xs, j.lookupField "words_with_mistakes" ≠ some (.arr xs)) ∧
    (∀ (text apiKey resp : String) (parse : String → Option Json)
      (block : List Char) (j : Json), apiKey ≠ "" →
      extractJsonBlock resp.data = some block →
      parse (String.mk block) = some j →
      getMistakesArray j = none →
      (checkGrammarWithDetails text apiKey (.success resp) parse).1 = ⟨[]⟩) := by
  have h1 : parseSuggestionLines s =
      ((splitLines s).filter isNumberedLine).map cleanLine := by
    unfold parseSuggestionLines
    rw [List.filter_eq_self]
    intro a ha
    rcases List.mem_map.mp ha with ⟨b, hb, hba⟩
    rw [← hba]
    exact decide_eq_true (cleanLine_length_pos b)
  refine ⟨h1, ?_, ?_, ?_, ?_⟩
  · intro line hline
    rw [h1] at hline
    rcases List.mem_map.mp hline with ⟨b, hb, hba⟩
    rw [← hba]
    exact cleanLine_endsPunct b
  · intro l m2 hm2
    exact extractJsonBlock_spec hm2
  · intro j
    constructor
    · intro hnone xs hfield
      unfold getMistakesArray at hnone
      rw [hfield] at hnone
      simp [Json.truthy] at hnone
    · intro hall
      unfold getMistakesArray
      rcases hf : j.lookupField "words_with_mistakes" with _ | v
      · rfl
      · rcases v with _ | b | n | st | xs | fs
        · rfl
        · cases b <;> rfl
        · by_cases hn : n = 0
          · subst hn
            rfl
          · simp [Json.truthy, hn]
        · by_cases hst : st = ""
          · subst hst
            rfl
          · simp [Json.truthy, hst]
        · exact absurd hf (hall xs)
        · rfl
  · intro text apiKey resp parse block j hk hextract hparse hnone
    simp [checkGrammarWithDetails, hk, hextract, hparse, hnone]

/-- Witness for the amended C5 parsing at concrete responses. -/
theorem responseParsing_spec_witness :
    ("The cat sat." ∈ parseSuggestionLines "1. The cat sat\nskip") ∧
    endsWithTerminalPunct "The cat sat." = true ∧
    (checkGrammarWithDetails "t" "key"
      (.success "\x7b\"words_with_mistakes\": 0\x7d")
      (fun _ => some (Json.obj [("words_with_mistakes", Json.num 0)]))).1 =
      ⟨[]⟩ := by
  have h := responseParsing_spec "1. The cat sat\nskip"
  refine ⟨by decide, h.2.1 "The cat sat." (by decide), ?_⟩
  exact h.2.2.2.2 "t" "key" "\x7b\"words_with_mistakes\": 0\x7d"
    (fun _ => some (Json.obj [("words_with_mistakes", Json.num 0)]))
    "\x7b\"words_with_mistakes\": 0\x7d".data
    (Json.obj [("words_with_mistakes", Json.num 0)])
    (by decide) (by decide) rfl rfl

/-- C2: checkGrammar keeps an in-memory cache keyed by the exact input string
with the fixed thirty-minute expiry.  A fresh entry is returned without
calling the API and without touching the cache; a stale or missing entry
triggers a fresh API check whose validated result is stored back under the
new timestamp; texts below the minimum length bypass cache and API; and the
cache invariant that every key passed the length gate is preserved, so the
fresh-and-stale cases cover every reachable cache state. -/
theorem checkGrammar_cache_spec (text : String) (cache : GrammarCache)
    (now : Int) (api : DetailedResult) :
    (10 ≤ (jsTrim text).length →
      (∀ e, cacheGet cache text = some e → now - e.timestamp < CACHE_EXPIRY_MS →
        checkGrammar text cache now api = ⟨e.errors, cache, false⟩) ∧
      ((∀ e, cacheGet cache text = some e → CACHE_EXPIRY_MS ≤ now - e.timestamp) →
        checkGrammar text cache now api =
          ⟨validateDetailed api,
           cacheSet cache text ⟨validateDetailed api, now⟩, true⟩)) ∧
    ((jsTrim text).length < 10 →
      checkGrammar text cache now api = ⟨[], cache, false⟩) ∧
    (cacheWF cache → cacheWF (checkGrammar text cache now api).cache) := by
  refine ⟨fun h10 => ⟨?_, ?_⟩, ?_, ?_⟩
  · intro e he hfresh
    have ht : ¬(text = "") := by
      intro heq
      rw [heq] at h10
      exact absurd h10 (by decide)
    have h15 : ¬((jsTrim text).length < 10) := by omega
    simp [checkGrammar, ht, h15, he, hfresh]
  · intro hstale
    have ht : ¬(text = "") := by
      intro heq
      rw [heq] at h10
      exact absurd h10 (by decide)
    have h15 : ¬((jsTrim text).length < 10) := by omega
    rcases hc : cacheGet cache text with _ | e
    · simp [checkGrammar, ht, h15, hc]
    · have hns := hstale e hc
      have hnf : ¬(now - e.timestamp < CACHE_EXPIRY_MS) := by omega
      simp [checkGrammar, ht, h15, hc, hnf]
  · intro hshort
    by_cases ht : text = ""
    · simp [checkGrammar, ht]
    · simp [checkGrammar, ht, hshort]
  · intro hwf
    unfold checkGrammar
    split
    · exact hwf
    · rename_i hguard
      have h10 : 10 ≤ (jsTrim text).length := by
        simp at hguard
        omega
      split
      · split
        · exact hwf
        · exact cacheWF_cacheSet hwf h10
      · exact cacheWF_cacheSet hwf h10

/-- Witness for the C2 cache behaviour: a fresh API check stores the
validated result, and a fresh cache entry is served without the API. -/
theorem checkGrammar_cache_spec_witness :
    checkGrammar "hello world test" [] 1000
      ⟨[⟨"helo", "hello", "spelling", .int 0, .int 4⟩]⟩ =
      ⟨[⟨"helo", "hello", "spelling", .int 0, .int 4⟩],
       [("hello world test",
         ⟨[⟨"helo", "hello", "spelling", .int 0, .int 4⟩], 1000⟩)], true⟩ ∧
    checkGrammar "hello world test" [("hello world test", ⟨[], 500⟩)] 1000
      ⟨[⟨"helo", "hello", "spelling", .int 0, .int 4⟩]⟩ =
      ⟨[], [("hello world test", ⟨[], 500⟩)], false⟩ := by
  have h := checkGrammar_cache_spec "hello world test" [] 1000
    ⟨[⟨"helo", "hello", "spelling", .int 0, .int 4⟩]⟩
  have h2 := checkGrammar_cache_spec "hello world test"
    [("hello world test", ⟨[], 500⟩)] 1000
    ⟨[⟨"helo", "hello", "spelling", .int 0, .int 4⟩]⟩
  constructor
  · have hfresh := (h.1 (by decide)).2 (fun e he => by simp [cacheGet] at he)
    exact hfresh.trans (by decide)
  · exact (h2.1 (by decide)).1 ⟨[], 500⟩ (by decide) (by decide)

/-- Round trip of the two text-node walkers along the shared accumulator. -/
theorem findAux_roundtrip (nodes : List String) :
    ∀ (idx : Nat) (p cl : Int), cl ≤ p → p < cl + totalTextLength nodes →
    ∃ i o, findAux nodes idx p cl = some ⟨some i, o⟩ ∧ idx ≤ i ∧
      getPosAux nodes idx i cl + o = p ∧ 0 ≤ o := by
  induction nodes with
  | nil =>
    intro idx p cl hcl hlt
    simp [totalTextLength] at hlt
    omega
  | cons v rest ih =>
    intro idx p cl hcl hlt
    have htl : totalTextLength (v :: rest) =
        (if jsTrim v = "" then 0 else (v.length : Int)) + totalTextLength rest := by
      simp [totalTextLength]
    by_cases hv : jsTrim v = ""
    · rw [htl, if_pos hv] at hlt
      obtain ⟨i, o, h1, h2, h3, h4⟩ := ih (idx + 1) p cl hcl (by omega)
      refine ⟨i, o, ?_, by omega, ?_, h4⟩
      · unfold findAux
        rw [if_pos hv]
        exact h1
      · unfold getPosAux
        rw [if_neg (by omega : ¬idx = i), if_pos hv]
        exact h3
    · by_cases hin : cl ≤ p ∧ p < cl + (v.length : Int)
      · refine ⟨idx, p - cl, ?_, le_refl idx, ?_, by omega⟩
        · unfold findAux
          rw [if_neg hv, if_pos hin]
        · unfold getPosAux
          rw [if_pos rfl]
          omega
      · have hge : cl + (v.length : Int) ≤ p := by
          rcases not_and_or.mp hin with hbad | hbad
          · omega
          · omega
        rw [htl, if_neg hv] at hlt
        obtain ⟨i, o, h1, h2, h3, h4⟩ :=
          ih (idx + 1) p (cl + (v.length : Int)) hge (by omega)
        refine ⟨i, o, ?_, by omega, ?_, h4⟩
        · unfold findAux
          rw [if_neg hv, if_neg hin]
          exact h1
        · unfold getPosAux
          rw [if_neg (by omega : ¬idx = i), if_neg hv]
          exact h3

/-- C10: round trip between position lookup and node offset.  For every
position inside the total length of the non-whitespace text nodes,
findTextNodeAtPosition returns a node and offset, and getTextNodePosition of
that node plus the offset recovers the position. -/
theorem findTextNode_roundtrip (nodes : List String) (p : Int)
    (h0 : 0 ≤ p) (hlt : p < totalTextLength nodes) :
    ∃ i o, findTextNodeAtPosition nodes p = some ⟨some i, o⟩ ∧
      getTextNodePosition nodes i + o = p ∧ 0 ≤ o := by
  obtain ⟨i, o, h1, h2, h3, h4⟩ :=
    findAux_roundtrip nodes 0 p 0 h0 (by simpa using hlt)
  refine ⟨i, o, ?_, h3, h4⟩
  unfold findTextNodeAtPosition
  rw [if_neg (not_lt.mpr h0)]
  exact h1

/-- Witness for the C10 round trip on a concrete element with a
whitespace-only middle node. -/
theorem findTextNode_roundtrip_witness :
    0 ≤ (3 : Int) ∧ (3 : Int) < totalTextLength ["ab", " ", "cd"] ∧
    (∃ i o, findTextNodeAtPosition ["ab", " ", "cd"] 3 = some ⟨some i, o⟩ ∧
      getTextNodePosition ["ab", " ", "cd"] i + o = 3 ∧ 0 ≤ o) ∧
    findTextNodeAtPosition ["ab", " ", "cd"] 3 = some ⟨some 2, 1⟩ ∧
    getTextNodePosition ["ab", " ", "cd"] 2 = 2 :=
  ⟨by decide, by decide,
   findTextNode_roundtrip ["ab", " ", "cd"] 3 (by decide) (by decide),
   by decide, by decide⟩

theorem tryLoadApiKey_eq (outcomes : Nat → LoadOutcome) (g : ConfigState)
    (r ai : Nat) :
    tryLoadApiKey outcomes g r ai =
      match outcomes ai, r with
      | .chromeUnavailable, _ => (false, g, ai + 1)
      | .contextInvalid, _ => (false, g, ai + 1)
      | .timeout, r2 + 1 => tryLoadApiKey outcomes g r2 (ai + 1)
      | .timeout, 0 => (false, g, ai + 1)
      | .runtimeError, r2 + 1 => tryLoadApiKey outcomes g r2 (ai + 1)
      | .runtimeError, 0 => (false, g, ai + 1)
      | .criticalError, r2 + 1 => tryLoadApiKey outcomes g r2 (ai + 1)
      | .criticalError, 0 => (false, g, ai + 1)
      | .storageResult none, _ => (false, g, ai + 1)
      | .storageResult (some k), r2 =>
        if k = "" then (false, g, ai + 1)
        else
          match updateApiKey k g, r2 with
          | (true, g2), r3 =>
            if g2.apiKey ≠ "" ∧ g2.apiKey = k then (true, g2, ai + 1)
            else
              match r3 with
              | r4 + 1 => tryLoadApiKey outcomes g2 r4 (ai + 1)
              | 0 => (false, g2, ai + 1)
          | (false, g2), r4 + 1 => tryLoadApiKey outcomes g2 r4 (ai + 1)
          | (false, g2), 0 => (false, g2, ai + 1) := by
  rw [tryLoadApiKey.eq_def]

/-- Attempt-loop invariant of loadApiKey: the attempt count is bounded by one
more than the remaining retries, and the loop resolves true exactly when its
final attempt read a non-empty key from storage, which is then the installed
and verified key. -/
theorem tryLoadApiKey_spec (outcomes : Nat → LoadOutcome) :
    ∀ (r : Nat) (g : ConfigState) (ai : Nat),
      ai + 1 ≤ (tryLoadApiKey outcomes g r ai).2.2 ∧
      (tryLoadApiKey outcomes g r ai).2.2 ≤ ai + r + 1 ∧
      ((tryLoadApiKey outcomes g r ai).1 = true ↔
        ∃ k, outcomes ((tryLoadApiKey outcomes g r ai).2.2 - 1) =
          LoadOutcome.storageResult (some k) ∧ k ≠ "") ∧
      ((tryLoadApiKey outcomes g r ai).1 = true →
        outcomes ((tryLoadApiKey outcomes g r ai).2.2 - 1) =
          LoadOutcome.storageResult
            (some (tryLoadApiKey outcomes g r ai).2.1.apiKey) ∧
        (tryLoadApiKey outcomes g r ai).2.1.apiKey ≠ "") := by
  intro r
  induction r with
  | zero =>
    intro g ai
    rw [tryLoadApiKey_eq]
    rcases ho : outcomes ai with _ | _ | _ | _ | _ | ok
    case chromeUnavailable =>
      dsimp only
      rw [Nat.add_sub_cancel, ho]
      exact ⟨le_refl _, by omega, by simp, by simp⟩
    case contextInvalid =>
      dsimp only
      rw [Nat.add_sub_cancel, ho]
      exact ⟨le_refl _, by omega, by simp, by simp⟩
    case timeout =>
      dsimp only
      rw [Nat.add_sub_cancel, ho]
      exact ⟨le_refl _, by omega, by simp, by simp⟩
    case runtimeError =>
      dsimp only
      rw [Nat.add_sub_cancel, ho]
      exact ⟨le_refl _, by omega, by simp, by simp⟩
    case criticalError =>
      dsimp only
      rw [Nat.add_sub_cancel, ho]
      exact ⟨le_refl _, by omega, by simp, by simp⟩
    case storageResult =>
      rcases ok with _ | k
      · dsimp only
        rw [Nat.add_sub_cancel, ho]
        exact ⟨le_refl _, by omega, by simp, by simp⟩
      · by_cases hk : k = ""
        · subst hk
          dsimp only
          rw [if_pos rfl]
          exact ⟨le_refl _, (by omega : ai + 1 ≤ ai + 0 + 1),
            by simp [Nat.add_sub_cancel, ho], by simp⟩
        · dsimp only
          rw [if_neg hk]
          have hupd : updateApiKey k g = (true, ⟨k, apiUrlFor k⟩) := by
            simp [updateApiKey, hk]
          rw [hupd]
          dsimp only
          rw [if_pos ⟨hk, rfl⟩]
          dsimp only
          rw [Nat.add_sub_cancel, ho]
          refine ⟨le_refl _, by omega, ?_, ?_⟩
          · exact ⟨fun _ => ⟨k, rfl, hk⟩, fun _ => rfl⟩
          · exact fun _ => ⟨rfl, hk⟩
  | succ r2 ih =>
    intro g ai
    rw [tryLoadApiKey_eq]
    rcases ho : outcomes ai with _ | _ | _ | _ | _ | ok
    case chromeUnavailable =>
      dsimp only
      rw [Nat.add_sub_cancel, ho]
      exact ⟨le_refl _, by omega, by simp, by simp⟩
    case contextInvalid =>
      dsimp only
      rw [Nat.add_sub_cancel, ho]
      exact ⟨le_refl _, by omega, by simp, by simp⟩
    case timeout =>
      dsimp only
      obtain ⟨ih1, ih2, ih3, ih4⟩ := ih g (ai + 1)
      exact ⟨by omega, by omega, ih3, ih4⟩
    case runtimeError =>
      dsimp only
      obtain ⟨ih1, ih2, ih3, ih4⟩ := ih g (ai + 1)
      exact ⟨by omega, by omega, ih3, ih4⟩
    case criticalError =>
      dsimp only
      obtain ⟨ih1, ih2, ih3, ih4⟩ := ih g (ai + 1)
      exact ⟨by omega, by omega, ih3, ih4⟩
    case storageResult =>
      rcases ok with _ | k
      · dsimp only
        rw [Nat.add_sub_cancel, ho]
        exact ⟨le_refl _, by omega, by simp, by simp⟩
      · by_cases hk : k = ""
        · subst hk
          dsimp only
          rw [if_pos rfl]
          exact ⟨le_refl _, (by omega : ai + 1 ≤ ai + (r2 + 1) + 1),
            by simp [Nat.add_sub_cancel, ho], by simp⟩
        · dsimp only
          rw [if_neg hk]
          have hupd : updateApiKey k g = (true, ⟨k, apiUrlFor k⟩) := by
            simp [updateApiKey, hk]
          rw [hupd]
          dsimp only
          rw [if_pos ⟨hk, rfl⟩]
          dsimp only
          rw [Nat.add_sub_cancel, ho]
          refine ⟨le_refl _, by omega, ?_, ?_⟩
          · exact ⟨fun _ => ⟨k, rfl, hk⟩, fun _ => rfl⟩
          · exact fun _ => ⟨rfl, hk⟩

/-- C8: the initial API-key load has a fixed retry count and always
completes: loadApiKey performs at most three retries (four attempts in
total), and resolves with true exactly when the resolving attempt found a
non-empty key in storage, which is then the installed key verified equal to
the stored value; the model is a total function returning a boolean, so
every path resolves and none rejects. -/
theorem loadApiKey_spec (outcomes : Nat → LoadOutcome) (g : ConfigState) :
    1 ≤ (loadApiKey outcomes g).2.2 ∧
    (loadApiKey outcomes g).2.2 ≤ maxRetries + 1 ∧
    ((loadApiKey outcomes g).1 = true ↔
      ∃ k, outcomes ((loadApiKey outcomes g).2.2 - 1) =
        LoadOutcome.storageResult (some k) ∧ k ≠ "") ∧
    ((loadApiKey outcomes g).1 = true →
      outcomes ((loadApiKey outcomes g).2.2 - 1) =
        LoadOutcome.storageResult (some (loadApiKey outcomes g).2.1.apiKey) ∧
      (loadApiKey outcomes g).2.1.apiKey ≠ "") := by
  have h := tryLoadApiKey_spec outcomes maxRetries g 0
  refine ⟨h.1, ?_, h.2.2.1, h.2.2.2⟩
  have h2 := h.2.1
  unfold loadApiKey
  omega

/-- Witness for the C8 load behaviour at a concrete outcome stream that
finds a key after the three timeout retries. -/
theorem loadApiKey_spec_witness :
    (loadApiKey (fun i => if i < 3 then LoadOutcome.timeout
      else LoadOutcome.storageResult (some "k")) ⟨"", ""⟩).2.2 =
      maxRetries + 1 ∧
    (loadApiKey (fun i => if i < 3 then LoadOutcome.timeout
      else LoadOutcome.storageResult (some "k")) ⟨"", ""⟩).1 = true ∧
    ((fun i => if i < 3 then LoadOutcome.timeout
        else LoadOutcome.storageResult (some "k"))
      ((loadApiKey (fun i => if i < 3 then LoadOutcome.timeout
        else LoadOutcome.storageResult (some "k")) ⟨"", ""⟩).2.2 - 1) =
      LoadOutcome.storageResult
        (some (loadApiKey (fun i => if i < 3 then LoadOutcome.timeout
          else LoadOutcome.storageResult (some "k")) ⟨"", ""⟩).2.1.apiKey) ∧
      (loadApiKey (fun i => if i < 3 then LoadOutcome.timeout
        else LoadOutcome.storageResult (some "k")) ⟨"", ""⟩).2.1.apiKey ≠ "") := by
  have h := loadApiKey_spec (fun i => if i < 3 then LoadOutcome.timeout
    else LoadOutcome.storageResult (some "k")) ⟨"", ""⟩
  exact ⟨by decide, by decide, h.2.2.2 (by decide)⟩

end GrammarSniper
